import Mathlib

/-!
Verification of the request-routing and tree-navigation layer of `mdv`
(`src/mdv/server.py`), a markdown viewer over HTTP.

The development shallowly embeds the code:
* `TreeNode` models the node dicts produced by the external tree builder
  (`type` tag, `name`, optional `children` key);
* `get_children` embeds the resolver `get_children(tree, path)`;
* the dispatcher (`App.dispatch`, the `on_*` handlers and the render
  helpers) is embedded over an abstract content-provider state `MdState`
  and an abstract bag of external renderers `Renderers`.

Spec-side definitions (`resolveSpec`, `addrDir`, `serveWith`'s 500
conversion) are written from the specification's words and compared with
the code-side ones.
-/

set_option autoImplicit false

namespace Mdv

/-- A tree node as built by the external content provider: a dict with a
`type` tag (the string literal distinguishing files from directories), a
`name` (the node's own path segment) and an optional `children` key that,
when present, holds the ordered child list. -/
inductive TreeNode : Type where
  | node (ty : String) (nm : String) (ch : Option (List TreeNode)) : TreeNode

/-- The `type` field of a node dict. -/
def TreeNode.type : TreeNode → String
  | .node t _ _ => t

/-- The `name` field of a node dict. -/
def TreeNode.name : TreeNode → String
  | .node _ n _ => n

/-- The optional `children` field of a node dict (`none` models an absent
key, so that `node.get "children" []` becomes `children.getD []`). -/
def TreeNode.children : TreeNode → Option (List TreeNode)
  | .node _ _ c => c

/-- Splitting of a character list at every `'/'`, with the semantics of
Python's `path.split("/")`: `""` yields `[""]`, `"/"` yields
`["", ""]`, separators are never merged. (Written over `List Char` so
that terms evaluate by kernel reduction.) -/
def splitSlashAux : List Char → List Char → List String
  | [], acc => [String.mk acc.reverse]
  | c :: cs, acc =>
      if c = '/' then String.mk acc.reverse :: splitSlashAux cs []
      else splitSlashAux cs (c :: acc)

/-- The non-empty path segments of a slash-delimited path string, exactly
as computed by `[p for p in path.split("/") if p]`. -/
def segsOf (path : String) : List String :=
  (splitSlashAux path.data []).filter (fun p => !(p == ""))

/-- The inner scan of `get_children`: walk the current node list and
return the first node whose `type` is `"directory"` and whose `name`
equals the current segment (the `for node in nodes: ... break` loop). -/
def findDir (part : String) : List TreeNode → Option TreeNode
  | [] => none
  | n :: rest =>
      if n.type == "directory" && n.name == part then some n
      else findDir part rest

/-- The segment walk of `get_children`: descend through the matched
directory's children (defaulting to `[]` when the `children` key is
absent), failing with `none` as soon as a segment has no directory
match. -/
def walk (nodes : List TreeNode) : List String → Option (List TreeNode)
  | [] => some nodes
  | part :: rest =>
      match findDir part nodes with
      | none => none
      | some found => walk (found.children.getD []) rest

/-- Embedding of `get_children(tree, path)` from `server.py`. `none`
models Python's `None` ("not found"); `some` carries the returned child
list. The final `return nodes or []` of the source is the identity on
lists (an empty list maps to `[]`), so `walk` returns the list
directly. -/
def get_children (tree : List TreeNode) (path : String) : Option (List TreeNode) :=
  let parts := segsOf path
  if parts.isEmpty then some tree
  else walk tree parts

/-- Membership test on a list of strings. -/
def containsStr : List String → String → Bool
  | [], _ => false
  | y :: ys, x => (y == x) || containsStr ys x

/-- True when a list of strings has no duplicate entry. Used to state the
data-model invariant that sibling names are unique. -/
def distinctNames : List String → Bool
  | [] => true
  | x :: xs => (!containsStr xs x) && distinctNames xs

mutual

/-- Well-formedness of a single node: its subtree satisfies the
data-model invariant (sibling names unique at every level). -/
def wfNode : TreeNode → Bool
  | .node _ _ c => wfOpt c

/-- Well-formedness of an optional children list. -/
def wfOpt : Option (List TreeNode) → Bool
  | none => true
  | some cs => distinctNames (cs.map TreeNode.name) && wfChildren cs

/-- Well-formedness of each node of a list. -/
def wfChildren : List TreeNode → Bool
  | [] => true
  | n :: rest => wfNode n && wfChildren rest

end

/-- Well-formedness of a whole tree (a root child list): names are unique
among siblings at every level, as the data model requires. -/
def wfTree (nodes : List TreeNode) : Bool :=
  distinctNames (nodes.map TreeNode.name) && wfChildren nodes

/-- Scan of a node list for the first node (of any type) bearing a name.
Written from the spec's description of addressing: a path segment selects
the sibling with that name, unambiguously because sibling names are
unique. -/
def findByName (part : String) : List TreeNode → Option TreeNode
  | [] => none
  | n :: rest =>
      if n.name == part then some n else findByName part rest

/-- Spec-side resolver, written from the specification's words: a segment
addresses the node with that name; addressing a file (or nothing) is "not
found"; addressing a directory descends into its children, and the final
child list is returned. -/
def resolveSpec (nodes : List TreeNode) : List String → Option (List TreeNode)
  | [] => some nodes
  | part :: rest =>
      match findByName part nodes with
      | none => none
      | some n =>
          if n.type == "directory" then resolveSpec (n.children.getD []) rest
          else none

/-- Spec-side addressing of a directory node by a non-empty segment path,
written from the specification's words: each segment selects the sibling
with that name, intermediate nodes must be directories, and the final
selected node is returned when it is a directory. -/
def addrDir (nodes : List TreeNode) : List String → Option TreeNode
  | [] => none
  | part :: rest =>
      match findByName part nodes with
      | none => none
      | some n =>
          if n.type == "directory" then
            match rest with
            | [] => some n
            | _ :: _ => addrDir (n.children.getD []) rest
          else none

/-- A werkzeug `Response` as the handlers build it: body, status code,
mimetype and extra headers. `Response(...)` defaults: status `200`,
mimetype `"text/html"`, no extra headers. -/
structure Response where
  body : String
  status : Nat
  mimetype : String
  headers : List (String × String)
deriving DecidableEq, Repr

/-- The 404 response built at both `except NotFound` in `App.dispatch`
and the `tree is None` branch of `App.render_tree`:
`Response("Not found", status=404, mimetype="text/plain")`. -/
def notFoundResponse : Response :=
  { body := "Not found", status := 404, mimetype := "text/plain", headers := [] }

/-- A Python exception as seen by `App.dispatch`: werkzeug `NotFound`,
another `HTTPException` carrying a status and body, or any other
exception (carrying no HTTP status). -/
inductive Exc : Type where
  | notFound
  | http (status : Nat) (body : String)
  | other (msg : String)
deriving DecidableEq, Repr

/-- The content-provider state (`MdViewerState`) as the dispatcher
observes it: file test, content fetch (by path and `raw` flag, fallible),
the current tree snapshot, the snapshot that `get_tree` returns once
`refresh()` has run, and the search operation (its result list modelled
opaquely by its serialized form). -/
structure MdState where
  is_file : String → Bool
  get_content : String → Bool → Except Exc String
  tree : List TreeNode
  tree_after_refresh : List TreeNode
  search : Option String → Except Exc String

/-- The external pure renderers the handlers compose: the `tree.md`
template (child list, route namespace, root path), `MarkdownParser.parse`,
the page templates (`page name content`), and `json.dumps` on a tree. -/
structure Renderers where
  tree_md : List TreeNode → String → String → String
  parse : String → String
  page : String → String → String
  dumps : List TreeNode → String

/-- An endpoint of the `url_map`, with its matched `<path:filename>`
argument where the rule has one. -/
inductive Endpoint : Type where
  | home
  | static (filename : String)
  | index
  | view (filename : String)
  | index_mdplain
  | mdplain (filename : String)
  | mdtext (filename : String)
  | dirtree
  | search
deriving DecidableEq, Repr

/-- Stripping of a literal rule part from the front of a request path
(as character lists, so that matching evaluates by kernel reduction). -/
def dropPre : List Char → List Char → Option (List Char)
  | [], cs => some cs
  | _ :: _, [] => none
  | p :: ps, c :: cs => if p = c then dropPre ps cs else none

/-- Matching of a `<path:filename>` rule with the given literal part:
werkzeug's `path` converter takes the non-empty remainder that does not
start with a slash. -/
def pathArg (pre path : String) : Option String :=
  match dropPre pre.data path.data with
  | none => none
  | some [] => none
  | some (c :: cs) => if c = '/' then none else some (String.mk (c :: cs))

/-- Binding of a request path against the `url_map` of `server.py`
(`adapter.match()`): `none` models the `NotFound` raised on no match. -/
def matchRoute (path : String) : Option Endpoint :=
  if path == "/" then some .home
  else if path == "/v/" then some .index
  else if path == "/m/" then some .index_mdplain
  else if path == "/api/tree" then some .dirtree
  else if path == "/api/search" then some .search
  else match pathArg "/static/" path with
  | some f => some (.static f)
  | none => match pathArg "/v/" path with
    | some f => some (.view f)
    | none => match pathArg "/m/" path with
      | some f => some (.mdplain f)
      | none => match pathArg "/t/" path with
        | some f => some (.mdtext f)
        | none => none

/-- A handler run: its outcome (`Response` or raised exception) together
with the number of `state.refresh()` calls it made. -/
structure HandlerOut where
  result : Except Exc Response
  refreshes : Nat

/-- Embedding of `App.render_markdown`: wrap page-template output in a
`text/html` response. -/
def render_markdown (r : Renderers) (template content : String) : Response :=
  { body := r.page template content, status := 200, mimetype := "text/html", headers := [] }

/-- Embedding of `App.render_tree`: resolve the path's children against
the current snapshot; on `None`, the 404 text response; otherwise render
the `tree.md` listing, parse it to HTML and wrap it in the page
template. -/
def render_tree (r : Renderers) (st : MdState) (template pfx filename : String) : Response :=
  match get_children st.tree filename with
  | none => notFoundResponse
  | some t =>
      let treeMd := r.tree_md t pfx ("/" ++ filename)
      render_markdown r template (r.parse treeMd)

/-- Embedding of `App.render_file`: fetch the file's rendered content
(`raw` defaulted to false) and wrap it in the page template; a provider
exception propagates. -/
def render_file (r : Renderers) (st : MdState) (template filename : String) :
    Except Exc Response :=
  (st.get_content filename false).map (fun c => render_markdown r template c)

/-- Embedding of `App.handle_common`: ask the provider whether the path
is a file; render the file if so, the directory listing otherwise. -/
def handle_common (r : Renderers) (st : MdState) (filename template pfx : String) :
    Except Exc Response :=
  if st.is_file filename then render_file r st template filename
  else .ok (render_tree r st template pfx filename)

/-- Embedding of `App.on_home`: a 302 redirect to `/v`. -/
def on_home : HandlerOut :=
  { result := .ok { body := "", status := 302, mimetype := "text/html",
                    headers := [("Location", "/v")] },
    refreshes := 0 }

/-- Embedding of `App.on_index`: refresh, then render the refreshed root
tree with the `v` namespace into `viewer.html`. -/
def on_index (r : Renderers) (st : MdState) : HandlerOut :=
  let t := st.tree_after_refresh
  let treeMd := r.tree_md t "v" "/"
  { result := .ok { body := r.page "viewer.html" (r.parse treeMd),
                    status := 200, mimetype := "text/html", headers := [] },
    refreshes := 1 }

/-- Embedding of `App.on_index_mdplain`: refresh, then render the
refreshed root tree with the `m` namespace into `plain.html`. -/
def on_index_mdplain (r : Renderers) (st : MdState) : HandlerOut :=
  let t := st.tree_after_refresh
  let treeMd := r.tree_md t "m" "/"
  { result := .ok { body := r.page "plain.html" (r.parse treeMd),
                    status := 200, mimetype := "text/html", headers := [] },
    refreshes := 1 }

/-- Embedding of `App.on_dirtree`: the JSON-serialized current
snapshot. -/
def on_dirtree (r : Renderers) (st : MdState) : HandlerOut :=
  { result := .ok { body := r.dumps st.tree, status := 200,
                    mimetype := "application/json", headers := [] },
    refreshes := 0 }

/-- Embedding of `App.on_search`: run the provider's search on the
`query` argument (absent modelled as `none`) and serialize the result. -/
def on_search (st : MdState) (q : Option String) : HandlerOut :=
  { result := (st.search q).map (fun s =>
      { body := s, status := 200, mimetype := "application/json", headers := [] }),
    refreshes := 0 }

/-- Embedding of `App.on_mdplain`: the common handler with the
`plain.html` template and the `m` namespace. -/
def on_mdplain (r : Renderers) (st : MdState) (filename : String) : HandlerOut :=
  { result := handle_common r st filename "plain.html" "m", refreshes := 0 }

/-- Embedding of `App.on_view`: the common handler with the
`viewer.html` template and the `v` namespace. -/
def on_view (r : Renderers) (st : MdState) (filename : String) : HandlerOut :=
  { result := handle_common r st filename "viewer.html" "v", refreshes := 0 }

/-- Embedding of `App.on_mdtext`: the provider's raw content wrapped
verbatim in a `text/plain` response; a provider exception propagates. -/
def on_mdtext (st : MdState) (filename : String) : HandlerOut :=
  { result := (st.get_content filename true).map (fun s =>
      { body := s, status := 200, mimetype := "text/plain", headers := [] }),
    refreshes := 0 }

/-- The handler table of the `App`: `getattr(self, f"on_...")` resolved
per endpoint. `on_static` was removed from the class, so the `getattr`
on the `static` endpoint raises `AttributeError`, an exception carrying
no HTTP status. -/
def appHandler (r : Renderers) (st : MdState) (q : Option String) : Endpoint → HandlerOut
  | .home => on_home
  | .static _ => { result := .error (.other "AttributeError"), refreshes := 0 }
  | .index => on_index r st
  | .view f => on_view r st f
  | .index_mdplain => on_index_mdplain r st
  | .mdplain f => on_mdplain r st f
  | .mdtext f => on_mdtext st f
  | .dirtree => on_dirtree r st
  | .search => on_search st q

/-- The `HTTPException` pass-through of `App.dispatch` (`except
HTTPException as e: return e`): werkzeug uses the exception itself as
the response, keeping its status and body. -/
def httpExcResponse (status : Nat) (body : String) : Response :=
  { body := body, status := status, mimetype := "text/html", headers := [] }

/-- Embedding of `App.dispatch` over an arbitrary handler table: bind the
path against the url map (no match raises `NotFound`), run the handler;
`NotFound` becomes the 404 text response, any other `HTTPException` is
returned as-is, and any other exception propagates out of `dispatch`. -/
def dispatchWith (h : Endpoint → HandlerOut) (path : String) : Except Exc Response :=
  match matchRoute path with
  | none => .ok notFoundResponse
  | some ep =>
      match (h ep).result with
      | .ok resp => .ok resp
      | .error .notFound => .ok notFoundResponse
      | .error (.http s b) => .ok (httpExcResponse s b)
      | .error e => .error e

/-- Number of `refresh()` calls made while dispatching a request: zero
when no route matches (no handler runs), the handler's count
otherwise. -/
def dispatchRefreshes (h : Endpoint → HandlerOut) (path : String) : Nat :=
  match matchRoute path with
  | none => 0
  | some ep => (h ep).refreshes

/-- Modelled from the spec: the top-level handler above `App.wsgi_app`
(the WSGI server started by `run_simple`, not part of `src/`), which
"converts [failures that carry no HTTP status] into a generic server
error response" — a 500 Internal Server Error distinct from 404. -/
def internalServerErrorResponse : Response :=
  { body := "Internal Server Error", status := 500, mimetype := "text/html", headers := [] }

/-- A full request handled to a response: `App.dispatch` composed with
the spec-modelled top-level server-error conversion. -/
def serveWith (h : Endpoint → HandlerOut) (path : String) : Response :=
  match dispatchWith h path with
  | .ok resp => resp
  | .error _ => internalServerErrorResponse

/-- The scenario tree of the specification's §8: a `docs` directory with
two files, a `readme.md` file, together with an empty directory and a
directory whose `children` key is absent. -/
def exTree : List TreeNode :=
  [ .node "directory" "docs" (some [ .node "file" "a.md" none, .node "file" "b.md" none ]),
    .node "file" "readme.md" none,
    .node "directory" "empty" (some []),
    .node "directory" "nokids" none ]

/-- A concrete instantiation of the external renderers, for evaluating
the route theorems on a closed input. -/
def exRenderers : Renderers :=
  { tree_md := fun _ pfx root => pfx ++ root,
    parse := fun s => s,
    page := fun t c => t ++ c,
    dumps := fun _ => "[]" }

/-- A concrete instantiation of the content-provider state over
`exTree`, for evaluating the route theorems on a closed input. -/
def exState : MdState :=
  { is_file := fun f => f == "readme.md",
    get_content := fun f raw =>
      if f == "readme.md" then .ok (if raw then "# hi" else "<h1>hi</h1>")
      else .error .notFound,
    tree := exTree,
    tree_after_refresh := exTree,
    search := fun _ => .ok "e[]" }

/-- The concrete handler table over `exRenderers` and `exState`. -/
def exHandler : Endpoint → HandlerOut :=
  appHandler exRenderers exState none

/-- A handler table whose every handler raises an exception carrying no
HTTP status, for evaluating the dispatcher theorems on a closed input. -/
def crashingHandler : Endpoint → HandlerOut :=
  fun _ => { result := .error (.other "boom"), refreshes := 0 }

/-- A handler table whose every handler raises an `HTTPException` with
status 400, for evaluating the pass-through theorem on a closed input. -/
def badRequestHandler : Endpoint → HandlerOut :=
  fun _ => { result := .error (.http 400 "Bad Request"), refreshes := 0 }

/-! Helper lemmas about the resolver. -/

theorem findByName_none_of_not_contains (part : String) (nodes : List TreeNode)
    (h : containsStr (nodes.map TreeNode.name) part = false) :
    findByName part nodes = none := by
  induction nodes with
  | nil => rfl
  | cons n rest ih =>
      simp only [List.map_cons, containsStr, Bool.or_eq_false_iff] at h
      simp only [findByName, h.1, Bool.false_eq_true, if_false]
      exact ih h.2

theorem findDir_none_of_not_contains (part : String) (nodes : List TreeNode)
    (h : containsStr (nodes.map TreeNode.name) part = false) :
    findDir part nodes = none := by
  induction nodes with
  | nil => rfl
  | cons n rest ih =>
      simp only [List.map_cons, containsStr, Bool.or_eq_false_iff] at h
      simp only [findDir, h.1, Bool.and_false, Bool.false_eq_true, if_false]
      exact ih h.2

theorem findByName_mem (part : String) (nodes : List TreeNode) (n : TreeNode)
    (h : findByName part nodes = some n) : n ∈ nodes := by
  induction nodes with
  | nil => cases h
  | cons m rest ih =>
      by_cases hm : (m.name == part) = true
      · rw [findByName, if_pos hm] at h
        cases h
        exact List.mem_cons_self _ _
      · rw [findByName, if_neg hm] at h
        exact List.mem_cons_of_mem _ (ih h)

theorem wfNode_of_mem (nodes : List TreeNode) (n : TreeNode)
    (h : wfChildren nodes = true) (hm : n ∈ nodes) : wfNode n = true := by
  induction nodes with
  | nil => cases hm
  | cons m rest ih =>
      simp only [wfChildren, Bool.and_eq_true] at h
      cases hm with
      | head => exact h.1
      | tail _ hm => exact ih h.2 hm

theorem wfTree_of_wfNode (n : TreeNode) (h : wfNode n = true) :
    wfTree (n.children.getD []) = true := by
  cases n with
  | node t nm c =>
      cases c with
      | none => rfl
      | some cs =>
          simp only [wfNode, wfOpt, Bool.and_eq_true] at h
          simp only [TreeNode.children, Option.getD, wfTree, Bool.and_eq_true]
          exact h

theorem findDir_eq_findByName (part : String) (nodes : List TreeNode)
    (h : distinctNames (nodes.map TreeNode.name) = true) :
    findDir part nodes =
      match findByName part nodes with
      | none => none
      | some n => if n.type == "directory" then some n else none := by
  induction nodes with
  | nil => rfl
  | cons n rest ih =>
      simp only [List.map_cons, distinctNames, Bool.and_eq_true, Bool.not_eq_true'] at h
      by_cases hname : (n.name == part) = true
      · have hpart : n.name = part := by simpa using hname
        by_cases hdir : (n.type == "directory") = true
        · simp [findDir, findByName, hname, hdir]
        · have hrest : findDir part rest = none := by
            apply findDir_none_of_not_contains
            rw [← hpart]
            exact h.1
          simp [findDir, findByName, hname, hdir, hrest]
      · simp only [findDir, findByName, hname, Bool.and_false, Bool.false_eq_true,
          if_false]
        exact ih h.2

theorem walk_eq_resolveSpec (parts : List String) : ∀ nodes : List TreeNode,
    wfTree nodes = true → walk nodes parts = resolveSpec nodes parts := by
  induction parts with
  | nil => intro nodes _; rfl
  | cons part rest ih =>
      intro nodes hwf
      simp only [wfTree, Bool.and_eq_true] at hwf
      rw [walk, findDir_eq_findByName part nodes hwf.1, resolveSpec]
      cases hfb : findByName part nodes with
      | none => rfl
      | some n =>
          by_cases hdir : (n.type == "directory") = true
          · simp only [hdir, if_true]
            exact ih _ (wfTree_of_wfNode n
              (wfNode_of_mem nodes n hwf.2 (findByName_mem part nodes n hfb)))
          · simp [hdir]

theorem get_children_eq_resolveSpec (tree : List TreeNode) (path : String)
    (h : wfTree tree = true) :
    get_children tree path = resolveSpec tree (segsOf path) := by
  simp only [get_children]
  cases hs : segsOf path with
  | nil => simp [resolveSpec]
  | cons a l =>
      simp only [List.isEmpty_cons, Bool.false_eq_true, if_false]
      exact walk_eq_resolveSpec (a :: l) tree h

theorem resolveSpec_of_addrDir (parts : List String) : ∀ (nodes : List TreeNode) (d : TreeNode),
    addrDir nodes parts = some d → resolveSpec nodes parts = some (d.children.getD []) := by
  induction parts with
  | nil => intro nodes d h; cases h
  | cons part rest ih =>
      intro nodes d h
      cases hfb : findByName part nodes with
      | none =>
          simp only [addrDir, hfb] at h
          cases h
      | some n =>
          simp only [addrDir, hfb] at h
          simp only [resolveSpec, hfb]
          by_cases hdir : (n.type == "directory") = true
          · simp only [hdir, if_true] at h ⊢
            cases rest with
            | nil =>
                cases h
                rfl
            | cons b bs =>
                exact ih _ _ h
          · rw [if_neg hdir] at h
            cases h

theorem get_children_congr (tree : List TreeNode) (p q : String)
    (h : segsOf p = segsOf q) : get_children tree p = get_children tree q := by
  simp only [get_children, h]

theorem resolveSpec_none_of_addrDir_none (parts : List String) : ∀ nodes : List TreeNode,
    parts ≠ [] → addrDir nodes parts = none → resolveSpec nodes parts = none := by
  induction parts with
  | nil => intro nodes h _; exact absurd rfl h
  | cons part rest ih =>
      intro nodes _ h
      cases hfb : findByName part nodes with
      | none => simp only [resolveSpec, hfb]
      | some n =>
          simp only [addrDir, hfb] at h
          simp only [resolveSpec, hfb]
          by_cases hdir : (n.type == "directory") = true
          · simp only [hdir, if_true] at h ⊢
            cases rest with
            | nil => cases h
            | cons b bs => exact ih _ (by simp) h
          · simp [hdir]

theorem findDir_eq_find (part : String) (nodes : List TreeNode) :
    findDir part nodes
      = nodes.find? (fun n => n.type == "directory" && n.name == part) := by
  induction nodes with
  | nil => rfl
  | cons n rest ih =>
      by_cases hc : (n.type == "directory" && n.name == part) = true
      · simp [findDir, List.find?, hc]
      · simp [findDir, List.find?, hc, ih]

theorem findDir_filter_dirs (part : String) (nodes : List TreeNode) :
    findDir part (nodes.filter (fun n => n.type == "directory"))
      = findDir part nodes := by
  induction nodes with
  | nil => rfl
  | cons n rest ih =>
      by_cases hd : (n.type == "directory") = true
      · simp only [List.filter_cons, hd, if_true]
        by_cases hname : (n.name == part) = true
        · simp [findDir, hd, hname]
        · simp [findDir, hd, hname, ih]
      · simp only [List.filter_cons, hd, Bool.false_eq_true, if_false]
        simp only [findDir, hd, Bool.false_and, Bool.false_eq_true, if_false]
        exact ih

/-! Claim theorems. -/

/-- C1: on a well-formed tree (sibling names unique, as the data model
requires), `get_children` agrees with the spec-side resolver everywhere;
in particular, a path addressing an existing directory yields exactly
that directory's child list in its stored order, and a path whose
segments address a non-directory node or no node at all yields `none`
(NotFound). -/
theorem resolver_returns_addressed_children (tree : List TreeNode) (path : String)
    (hwf : wfTree tree = true) :
    get_children tree path = resolveSpec tree (segsOf path)
  ∧ (∀ d : TreeNode, addrDir tree (segsOf path) = some d →
        get_children tree path = some (d.children.getD []))
  ∧ (segsOf path ≠ [] → addrDir tree (segsOf path) = none →
        get_children tree path = none) := by
  have he := get_children_eq_resolveSpec tree path hwf
  refine ⟨he, ?_, ?_⟩
  · intro d hd
    rw [he, resolveSpec_of_addrDir (segsOf path) tree d hd]
  · intro hne hnone
    rw [he, resolveSpec_none_of_addrDir_none (segsOf path) tree hne hnone]

/-- Witness for C1 on the §8 scenario tree: `"docs"` addresses the
`docs` directory and resolution returns its two children in order. -/
theorem resolver_returns_addressed_children_witness :
    wfTree exTree = true
  ∧ get_children exTree "docs"
      = some [ .node "file" "a.md" none, .node "file" "b.md" none ] :=
  ⟨rfl,
    (resolver_returns_addressed_children exTree "docs" rfl).2.1
      (.node "directory" "docs"
        (some [ .node "file" "a.md" none, .node "file" "b.md" none ])) rfl⟩

/-- C2: a handler failure that carries no HTTP status passes through
`App.dispatch` uncaught (it is not turned into the 404 response) and the
top-level server handler turns it into the generic server-error
response, which differs from the 404 not-found response in both identity
and status. -/
theorem unhandled_failure_becomes_server_error (h : Endpoint → HandlerOut)
    (path : String) (ep : Endpoint) (m : String)
    (hm : matchRoute path = some ep)
    (hh : (h ep).result = .error (.other m)) :
    dispatchWith h path = .error (.other m)
  ∧ serveWith h path = internalServerErrorResponse
  ∧ internalServerErrorResponse ≠ notFoundResponse
  ∧ internalServerErrorResponse.status ≠ notFoundResponse.status := by
  have hd : dispatchWith h path = .error (.other m) := by
    simp only [dispatchWith, hm, hh]
  refine ⟨hd, ?_, by decide, by decide⟩
  simp only [serveWith, hd]

/-- Witness for C2: a handler table that always raises a status-less
exception yields the 500 response on a matched route. -/
theorem unhandled_failure_becomes_server_error_witness :
    matchRoute "/v/docs" = some (.view "docs")
  ∧ (crashingHandler (.view "docs")).result = .error (.other "boom")
  ∧ serveWith crashingHandler "/v/docs" = internalServerErrorResponse :=
  ⟨rfl, rfl,
    (unhandled_failure_becomes_server_error crashingHandler "/v/docs"
      (.view "docs") "boom" rfl rfl).2.1⟩

/-- C3: the `/v/<path>` and `/m/<path>` handlers first ask the provider
`is_file`; if true they render the file's content, otherwise they
resolve the path's children, returning the 404 response when resolution
fails and rendering the listing otherwise; the page template and
namespace are a pure function of the route (`v` ↦ `viewer.html`, `m` ↦
`plain.html`). -/
theorem view_and_mdplain_route_behavior (r : Renderers) (st : MdState)
    (q : Option String) (f : String) :
    ((appHandler r st q (.view f)).result =
        if st.is_file f then render_file r st "viewer.html" f
        else .ok (render_tree r st "viewer.html" "v" f))
  ∧ ((appHandler r st q (.mdplain f)).result =
        if st.is_file f then render_file r st "plain.html" f
        else .ok (render_tree r st "plain.html" "m" f))
  ∧ (st.is_file f = false → get_children st.tree f = none →
        (appHandler r st q (.view f)).result = .ok notFoundResponse
      ∧ (appHandler r st q (.mdplain f)).result = .ok notFoundResponse)
  ∧ (∀ t : List TreeNode, st.is_file f = false → get_children st.tree f = some t →
        (appHandler r st q (.view f)).result =
          .ok (render_markdown r "viewer.html" (r.parse (r.tree_md t "v" ("/" ++ f))))
      ∧ (appHandler r st q (.mdplain f)).result =
          .ok (render_markdown r "plain.html" (r.parse (r.tree_md t "m" ("/" ++ f))))) := by
  refine ⟨rfl, rfl, ?_, ?_⟩
  · intro hfile hgc
    constructor <;>
      simp only [appHandler, on_view, on_mdplain, handle_common, hfile,
        Bool.false_eq_true, if_false, render_tree, hgc]
  · intro t hfile hgc
    constructor <;>
      simp only [appHandler, on_view, on_mdplain, handle_common, hfile,
        Bool.false_eq_true, if_false, render_tree, hgc]

/-- Witness for C3: on the scenario tree, `/v/missing` is not a file,
resolves to no directory, and yields the 404 response. -/
theorem view_and_mdplain_route_behavior_witness :
    exState.is_file "missing" = false
  ∧ get_children exState.tree "missing" = none
  ∧ (appHandler exRenderers exState none (.view "missing")).result
      = .ok notFoundResponse :=
  ⟨rfl, rfl,
    ((view_and_mdplain_route_behavior exRenderers exState none "missing").2.2.1
      rfl rfl).1⟩

/-- C4: the empty path and `"/"` both resolve to the root child list;
resolution depends only on the list of non-empty segments, so any path
with redundant separators (leading, trailing or duplicated slashes)
resolves exactly like its normalized form. -/
theorem resolver_ignores_redundant_separators :
    (∀ tree : List TreeNode,
        get_children tree "" = some tree ∧ get_children tree "/" = some tree)
  ∧ (∀ (tree : List TreeNode) (p q : String), segsOf p = segsOf q →
        get_children tree p = get_children tree q)
  ∧ (∀ tree : List TreeNode,
        get_children tree "a//b/" = get_children tree "a/b"
      ∧ get_children tree "/a/b" = get_children tree "a/b"
      ∧ get_children tree "a/b/" = get_children tree "a/b") := by
  refine ⟨fun tree => ⟨rfl, rfl⟩, get_children_congr, fun tree => ⟨?_, ?_, ?_⟩⟩
  · exact get_children_congr tree "a//b/" "a/b" rfl
  · exact get_children_congr tree "/a/b" "a/b" rfl
  · exact get_children_congr tree "a/b/" "a/b" rfl

/-- Witness for C4: the noisy path `"a//b"` and its normalized form
split to the same segments and resolve identically on the scenario
tree. -/
theorem resolver_ignores_redundant_separators_witness :
    segsOf "a//b" = segsOf "a/b"
  ∧ get_children exTree "a//b" = get_children exTree "a/b" :=
  ⟨rfl, resolver_ignores_redundant_separators.2.1 exTree "a//b" "a/b" rfl⟩

/-- C5: on a well-formed tree, a path addressing an existing directory
with absent or empty children resolves to `some []`, never to `none`:
the empty-directory outcome stays distinguishable from the absent-path
outcome. -/
theorem empty_directory_yields_empty_list (tree : List TreeNode) (path : String)
    (d : TreeNode) (hwf : wfTree tree = true)
    (haddr : addrDir tree (segsOf path) = some d)
    (hch : d.children = none ∨ d.children = some []) :
    get_children tree path = some [] ∧ get_children tree path ≠ none := by
  have he := get_children_eq_resolveSpec tree path hwf
  have hr := resolveSpec_of_addrDir (segsOf path) tree d haddr
  have hd : d.children.getD [] = [] := by
    cases hch with
    | inl h => rw [h]; rfl
    | inr h => rw [h]; rfl
  rw [he, hr, hd]
  exact ⟨rfl, by simp⟩

/-- Witness for C5: the scenario tree's `empty` directory (explicit
empty child list) resolves to `some []`. -/
theorem empty_directory_yields_empty_list_witness :
    wfTree exTree = true
  ∧ addrDir exTree (segsOf "empty") = some (.node "directory" "empty" (some []))
  ∧ get_children exTree "empty" = some [] :=
  ⟨rfl, rfl,
    (empty_directory_yields_empty_list exTree "empty"
      (.node "directory" "empty" (some [])) rfl rfl (Or.inr rfl)).1⟩

/-- C6: a request path matched by no route yields the 404 response with
`text/plain` body `"Not found"`, and the response built when directory
resolution fails inside `render_tree` is the very same response value
(same status, mimetype and body). -/
theorem unmatched_and_unresolved_yield_404 :
    (∀ (h : Endpoint → HandlerOut) (path : String), matchRoute path = none →
        dispatchWith h path = .ok notFoundResponse)
  ∧ notFoundResponse.status = 404
  ∧ notFoundResponse.mimetype = "text/plain"
  ∧ notFoundResponse.body = "Not found"
  ∧ (∀ (r : Renderers) (st : MdState) (template pfx filename : String),
        get_children st.tree filename = none →
        render_tree r st template pfx filename = notFoundResponse) := by
  refine ⟨?_, rfl, rfl, rfl, ?_⟩
  · intro h path hm
    simp only [dispatchWith, hm]
  · intro r st template pfx filename hgc
    simp only [render_tree, hgc]

/-- Witness for C6: the path `/nope` matches no route and dispatch
returns the 404 text response. -/
theorem unmatched_and_unresolved_yield_404_witness :
    matchRoute "/nope" = none
  ∧ dispatchWith exHandler "/nope" = .ok notFoundResponse :=
  ⟨rfl, unmatched_and_unresolved_yield_404.1 exHandler "/nope" rfl⟩

/-- C7: a handler-raised `HTTPException` other than `NotFound` is
returned by `App.dispatch` as the response itself, its status and body
preserved. -/
theorem http_exception_passthrough (h : Endpoint → HandlerOut) (path : String)
    (ep : Endpoint) (s : Nat) (b : String)
    (hm : matchRoute path = some ep)
    (hh : (h ep).result = .error (.http s b)) :
    dispatchWith h path = .ok (httpExcResponse s b)
  ∧ (httpExcResponse s b).status = s
  ∧ (httpExcResponse s b).body = b := by
  refine ⟨?_, rfl, rfl⟩
  simp only [dispatchWith, hm, hh]

/-- Witness for C7: a handler raising a 400 `HTTPException` on
`/api/tree` produces the 400 response with its body intact. -/
theorem http_exception_passthrough_witness :
    matchRoute "/api/tree" = some .dirtree
  ∧ (badRequestHandler .dirtree).result = .error (.http 400 "Bad Request")
  ∧ dispatchWith badRequestHandler "/api/tree" = .ok (httpExcResponse 400 "Bad Request") :=
  ⟨rfl, rfl,
    (http_exception_passthrough badRequestHandler "/api/tree" .dirtree 400
      "Bad Request" rfl rfl).1⟩

/-- C8: dispatching `/v/` or `/m/` runs exactly one provider refresh
(and renders the refreshed snapshot); every other endpoint runs none,
and its whole handler output is unchanged by a different would-be
refreshed snapshot, i.e. it reads only the last-known snapshot. -/
theorem refresh_only_on_index_routes (r : Renderers) (st : MdState)
    (q : Option String) :
    dispatchRefreshes (appHandler r st q) "/v/" = 1
  ∧ dispatchRefreshes (appHandler r st q) "/m/" = 1
  ∧ (∀ ep : Endpoint, ep ≠ .index → ep ≠ .index_mdplain →
        (appHandler r st q ep).refreshes = 0)
  ∧ (∀ (t' : List TreeNode) (ep : Endpoint), ep ≠ .index → ep ≠ .index_mdplain →
        appHandler r { st with tree_after_refresh := t' } q ep
          = appHandler r st q ep) := by
  refine ⟨rfl, rfl, ?_, ?_⟩
  · intro ep h1 h2
    cases ep with
    | index => exact absurd rfl h1
    | index_mdplain => exact absurd rfl h2
    | _ => rfl
  · intro t' ep h1 h2
    cases ep with
    | index => exact absurd rfl h1
    | index_mdplain => exact absurd rfl h2
    | _ => rfl

/-- Witness for C8: the `/t/<path>` endpoint performs no refresh. -/
theorem refresh_only_on_index_routes_witness :
    (appHandler exRenderers exState none (.mdtext "readme.md")).refreshes = 0 :=
  (refresh_only_on_index_routes exRenderers exState none).2.2.1
    (.mdtext "readme.md") (by simp) (by simp)

/-- C9: the `/t/<path>` handler calls `get_content(path, raw=True)`
directly: on success the response carries the provider's string verbatim
as `text/plain`, a provider failure is returned unhandled (so it
surfaces only through the dispatcher's exception handling, never as this
layer's 404), and the handler's output is independent of `is_file`, the
tree and everything else but `get_content`. -/
theorem mdtext_bypasses_resolver (r r' : Renderers) (st st' : MdState)
    (q q' : Option String) (f s : String) (e : Exc) :
    (st.get_content f true = .ok s →
        (appHandler r st q (.mdtext f)).result =
          .ok { body := s, status := 200, mimetype := "text/plain", headers := [] })
  ∧ (st.get_content f true = .error e →
        (appHandler r st q (.mdtext f)).result = .error e)
  ∧ (st.get_content = st'.get_content →
        appHandler r st q (.mdtext f) = appHandler r' st' q' (.mdtext f)) := by
  refine ⟨?_, ?_, ?_⟩
  · intro h
    simp only [appHandler, on_mdtext, h, Except.map]
  · intro h
    simp only [appHandler, on_mdtext, h, Except.map]
  · intro h
    simp only [appHandler, on_mdtext, h]

/-- Witness for C9: fetching `readme.md` raw returns the provider's raw
string verbatim. -/
theorem mdtext_bypasses_resolver_witness :
    exState.get_content "readme.md" true = .ok "# hi"
  ∧ (appHandler exRenderers exState none (.mdtext "readme.md")).result
      = .ok { body := "# hi", status := 200, mimetype := "text/plain", headers := [] } :=
  ⟨rfl,
    (mdtext_bypasses_resolver exRenderers exRenderers exState exState none none
      "readme.md" "# hi" .notFound).1 rfl⟩

/-- C10: one resolution step scans only directory nodes: the step
descends into the first directory node (in stored order) whose name is
the segment, exactly `List.find?` over the directory-and-name test, and
deleting every file node from the current level leaves the step's result
unchanged, so a file node with a matching name never terminates or
blocks the walk. -/
theorem segment_scan_considers_only_directories (nodes : List TreeNode)
    (part : String) (rest : List String) :
    walk nodes (part :: rest) =
      (match nodes.find? (fun n => n.type == "directory" && n.name == part) with
       | none => none
       | some d => walk (d.children.getD []) rest)
  ∧ walk (nodes.filter (fun n => n.type == "directory")) (part :: rest)
      = walk nodes (part :: rest) := by
  constructor
  · rw [walk, findDir_eq_find]
  · rw [walk, walk, findDir_filter_dirs]

end Mdv
